import Mathlib

/-!
Verification development for the `pubnub-rs` client library.

The definitions below are a shallow embedding of `src/lib.rs` (the
subscribe loop, message decoding, URL construction and the publish
request) and of `pubnub-core/src/pubnub.rs` (the client facade).
Machine integers (`u32`, bytes) are modelled as `Nat`; fallible Rust
code is modelled with `Option`/`Except`; a `panic!`/`unwrap` on `None`
is modelled as the `none` value of an outer `Option` (or an explicit
`panicked` flag).  External crates (`hyper`, `json`, `percent_encoding`)
are modelled at the surface the repository uses.
-/

namespace Pubnub

/-! ## JSON values (the surface of the external `json` crate used by the code) -/

/-- Model of `json::JsonValue`.  Numbers are modelled as integers, which covers
every numeric value the repository reads (`e` tags, timetoken regions, flags). -/
inductive JsonValue where
  | null
  | bool (b : Bool)
  | num (n : Int)
  | str (s : String)
  | arr (xs : List JsonValue)
  | obj (fields : List (String × JsonValue))

/-- Model of `JsonValue::as_u32`: a number representable as `u32`. -/
def JsonValue.as_u32 : JsonValue → Option Nat
  | .num n => if 0 ≤ n ∧ n < 4294967296 then some n.toNat else none
  | _ => none

/-- Escape of one character inside a JSON string, as the `json` crate's
serializer writes it (`\"`, `\\`, `\b`, `\f`, `\n`, `\r`, `\t`, and
`\u00XX` for the remaining control characters). -/
def jsonEscapeChar (n : Nat) : List Char :=
  if n = 34 then [Char.ofNat 92, Char.ofNat 34]
  else if n = 92 then [Char.ofNat 92, Char.ofNat 92]
  else if n = 8 then [Char.ofNat 92, Char.ofNat 98]
  else if n = 12 then [Char.ofNat 92, Char.ofNat 102]
  else if n = 10 then [Char.ofNat 92, Char.ofNat 110]
  else if n = 13 then [Char.ofNat 92, Char.ofNat 114]
  else if n = 9 then [Char.ofNat 92, Char.ofNat 116]
  else if n < 32 then
    [Char.ofNat 92, Char.ofNat 117, Char.ofNat 48, Char.ofNat 48,
     Char.ofNat (if n / 16 < 10 then 48 + n / 16 else 87 + n / 16),
     Char.ofNat (if n % 16 < 10 then 48 + n % 16 else 87 + n % 16)]
  else [Char.ofNat n]

mutual

/-- Model of `JsonValue::dump` (and hence of `json::stringify`). -/
def JsonValue.dump : JsonValue → String
  | .null => "null"
  | .bool b => cond b "true" "false"
  | .num n => toString n
  | .str s =>
      String.mk (Char.ofNat 34 :: (s.data.flatMap fun c => jsonEscapeChar c.toNat) ++ [Char.ofNat 34])
  | .arr xs => "[" ++ String.intercalate "," (JsonValue.dumpList xs) ++ "]"
  | .obj fs => "\x7b" ++ String.intercalate "," (JsonValue.dumpObj fs) ++ "\x7d"

/-- Serializes each element of a JSON array. -/
def JsonValue.dumpList : List JsonValue → List String
  | [] => []
  | v :: rest => v.dump :: JsonValue.dumpList rest

/-- Serializes each field of a JSON object. -/
def JsonValue.dumpObj : List (String × JsonValue) → List String
  | [] => []
  | (k, v) :: rest => ((JsonValue.str k).dump ++ ":" ++ v.dump) :: JsonValue.dumpObj rest

end

/-- Model of `json::stringify` (it converts and calls `dump`). -/
def json_stringify (v : JsonValue) : String := v.dump

/-- Model of the `json` crate's `Index<usize>` impl: `data_json[2]` yields the
array element, or `Null` for out-of-bounds indices and non-arrays. -/
def JsonValue.idx : JsonValue → Nat → JsonValue
  | .arr xs, i => xs.getD i JsonValue.null
  | _, _ => JsonValue.null

/-- Model of the `json` crate's `Display` impl (`to_string`): strings print
their raw contents without quotes, other values print their JSON dump. -/
def JsonValue.toDisplay : JsonValue → String
  | .str s => s
  | .num n => toString n
  | .bool b => cond b "true" "false"
  | .null => "null"
  | v => v.dump

/-! ## UTF-8 and percent-encoding (`percent_encoding` crate, `NON_ALPHANUMERIC` set) -/

/-- UTF-8 encoding of one Unicode scalar value (as byte values). -/
def utf8EncodeNat (c : Nat) : List Nat :=
  if c < 128 then [c]
  else if c < 2048 then [192 + c / 64, 128 + c % 64]
  else if c < 65536 then [224 + c / 4096, 128 + (c / 64) % 64, 128 + c % 64]
  else [240 + c / 262144, 128 + (c / 4096) % 64, 128 + (c / 64) % 64, 128 + c % 64]

/-- The UTF-8 bytes of a string. -/
def utf8Bytes (s : String) : List Nat := s.data.flatMap fun c => utf8EncodeNat c.toNat

/-- Upper-case hexadecimal digit (as a byte value), used by the
`percent_encoding` crate. -/
def hexDigitUpper (n : Nat) : Nat := if n < 10 then 48 + n else 55 + n

/-- Bytes kept verbatim by the `NON_ALPHANUMERIC` encode set: ASCII
alphanumerics only. -/
def isAsciiAlphanumByte (b : Nat) : Bool :=
  (48 ≤ b && b ≤ 57) || (65 ≤ b && b ≤ 90) || (97 ≤ b && b ≤ 122)

/-- Percent-encoding of one byte over the `NON_ALPHANUMERIC` set: an
alphanumeric byte stays, everything else becomes `%` and two upper-case
hex digits. -/
def pctEncodeByte (b : Nat) : List Nat :=
  if isAsciiAlphanumByte b then [b] else [37, hexDigitUpper (b / 16), hexDigitUpper (b % 16)]

/-- Model of `percent_encoding::utf8_percent_encode(s, NON_ALPHANUMERIC).to_string()`. -/
def utf8_percent_encode (s : String) : String :=
  String.mk (((utf8Bytes s).flatMap pctEncodeByte).map Char.ofNat)

/-! ## Timetoken and messages -/

/-- Model of `Timetoken { t: String, r: u32 }`. -/
structure Timetoken where
  t : String
  r : Nat
deriving DecidableEq

/-- Model of `impl Default for Timetoken`: the cold-start value. -/
def Timetoken.default : Timetoken := { t := "0", r := 0 }

/-- Model of `enum MessageType` from `src/lib.rs`. -/
inductive MessageType where
  | Publish
  | Signal
  | Objects
  | Action
  | Presence
  | Unknown (n : Nat)
deriving DecidableEq

/-- Model of `MessageType::from_json`: `match i.as_u32().unwrap_or(0)` with
arms `0/1/2/3` and a catch-all to `Unknown`. -/
def MessageType.from_json (i : JsonValue) : MessageType :=
  match i.as_u32.getD 0 with
  | 0 => .Publish
  | 1 => .Signal
  | 2 => .Objects
  | 3 => .Action
  | n => .Unknown n

/-- Model of `struct Message` from `src/lib.rs`. -/
structure Message where
  message_type : MessageType
  route : Option String
  channel : String
  json : JsonValue
  metadata : JsonValue
  timetoken : Timetoken
  client : Option String
  subscribe_key : String
  flags : Nat

/-! ## Channel map and `encode_channels` -/

/-- A consumer-queue send handle (`mpsc::Sender<Message>`), identified by a
number; the loop only clones it and sends into it. -/
abbrev ChannelTx := Nat

/-- Model of `ChannelMap = HashMap<String, Vec<ChannelTx>>` as an association
list; the `Vec` of listeners keeps insertion order exactly as the source does. -/
abbrev ChannelMap := List (String × List ChannelTx)

/-- Model of `HashMap::get`/`get_mut` on the channel map. -/
def lookupChannel (m : ChannelMap) (k : String) : Option (List ChannelTx) :=
  match m with
  | [] => none
  | p :: rest => if p.1 = k then some p.2 else lookupChannel rest k

/-- Model of `encode_channels`: percent-encode each channel name and join
with the literal separator `%2C`. -/
def encode_channels (channels : ChannelMap) : String :=
  String.intercalate "%2C" ((channels.map Prod.fst).map fun channel => utf8_percent_encode channel)

/-! ## URL construction -/

/-- The publish URL built by `publish_with_metadata` (both in `src/lib.rs`
and in `pubnub-core/src/pubnub.rs`): the payload is JSON-stringified, then
payload and channel are percent-encoded into the fixed path shape. -/
def publish_url (origin pub_key sub_key : String) (channel : String) (message : JsonValue) : String :=
  let m := json_stringify message
  let m := utf8_percent_encode m
  let c := utf8_percent_encode channel
  "https://" ++ origin ++ "/publish/" ++ pub_key ++ "/" ++ sub_key ++ "/0/" ++ c ++ "/0/" ++ m

/-- The subscribe URL built at the top of every iteration of
`SubscribeLoop::run`. -/
def subscribe_url (origin sub_key encoded_channels : String) (tt : Timetoken) : String :=
  "https://" ++ origin ++ "/v2/subscribe/" ++ sub_key ++ "/" ++ encoded_channels ++ "/0?tt="
    ++ tt.t ++ "&tr=" ++ toString tt.r

/-! ## The subscribe loop (`SubscribeLoop::run` in `src/lib.rs`) -/

/-- Model of `enum ListenerType`. -/
inductive ListenerType where
  | Channel (name : String)
  | Group (name : String)

/-- Model of `enum PipeMessage` (the messages the loop can receive on its
pipe; `Ready` travels the other way but shares the type). -/
inductive PipeMessage where
  | Drop (l : ListenerType)
  | Add (l : ListenerType) (tx : ChannelTx)
  | Ready

/-- Model of an opaque transport-level failure (`hyper::Error`). -/
structure HyperFailure where
  code : Nat
deriving DecidableEq

/-- One resolution of the `select!` inside the loop: either a pipe message
arrived first, or the long-poll response (success or transport failure)
arrived first. -/
inductive LoopEvent where
  | control (m : PipeMessage)
  | response (r : Except HyperFailure (List Message × Timetoken))

/-- Observable actions of the loop: posting `Ready` on the pipe, and sending
a message clone into a listener's consumer queue. -/
inductive LoopOutput where
  | ready
  | send (tx : ChannelTx) (m : Message)

/-- How a run of the loop ended. -/
inductive LoopExit where
  | broke
  | panicked
  | pending
deriving DecidableEq

/-- Model of `struct SubscribeLoop` (its data fields) together with the
`timetoken` local variable of `run`, carried as explicit state. -/
structure LoopState where
  origin : String
  agent : String
  subscribe_key : String
  channels : ChannelMap
  groups : ChannelMap
  encoded_channels : String
  encoded_groups : String
  timetoken : Timetoken

/-- Model of `SubscribeLoop::new`: caches the percent-encoded channel and
group lists; the timetoken is the cold-start default (assigned at the top
of `run`). -/
def SubscribeLoop.new (origin agent subscribe_key : String)
    (channels groups : ChannelMap) : LoopState :=
  { origin := origin
    agent := agent
    subscribe_key := subscribe_key
    channels := channels
    groups := groups
    encoded_channels := encode_channels channels
    encoded_groups := encode_channels groups
    timetoken := Timetoken.default }

/-- Everything a run of the loop produces: the poll URLs it constructed
(one per resolved iteration), the outputs in order, the stored timetoken
after each resolved iteration, the final state, and how it ended. -/
structure LoopRun where
  polls : List String
  outputs : List LoopOutput
  tokenHistory : List Timetoken
  state : LoopState
  exit : LoopExit

/-- Model of the message-distribution step of `SubscribeLoop::run`: for each
message, the routing key is `route` when present, else `channel`; the
listener list is looked up with `.unwrap()` — a missing key is a panic
(second component `true`), which aborts delivery. -/
def deliver (channels : ChannelMap) : List Message → List LoopOutput × Bool
  | [] => ([], false)
  | msg :: rest =>
    let route := msg.route.getD msg.channel
    match lookupChannel channels route with
    | none => ([], true)
    | some listeners =>
      let tail := deliver channels rest
      ((listeners.map fun tx => LoopOutput.send tx msg) ++ tail.1, tail.2)

/-- Model of the body of `SubscribeLoop::run`, driven by the list of
`select!` resolutions.  Each iteration constructs the poll URL, then:
a control message makes the loop `break` unconditionally (the `XXX` branch
in the source); a transport error makes it `continue` with the timetoken
unchanged; a successful response posts `Ready` when the outgoing timetoken
was `"0"`, unconditionally stores the returned timetoken, and distributes
the batch (panicking on an unregistered routing key). -/
def runLoop (s : LoopState) : List LoopEvent → LoopRun
  | [] => { polls := [], outputs := [], tokenHistory := [], state := s, exit := .pending }
  | e :: rest =>
    let url := subscribe_url s.origin s.subscribe_key s.encoded_channels s.timetoken
    match e with
    | .control _ =>
        { polls := [url], outputs := [], tokenHistory := [s.timetoken], state := s, exit := .broke }
    | .response (.error _) =>
        let k := runLoop s rest
        { polls := url :: k.polls, outputs := k.outputs,
          tokenHistory := s.timetoken :: k.tokenHistory, state := k.state, exit := k.exit }
    | .response (.ok (messages, next_timetoken)) =>
        let readyOut := if s.timetoken.t = "0" then [LoopOutput.ready] else []
        let s2 := { s with timetoken := next_timetoken }
        let d := deliver s2.channels messages
        if d.2 then
          { polls := [url], outputs := readyOut ++ d.1,
            tokenHistory := [next_timetoken], state := s2, exit := .panicked }
        else
          let k := runLoop s2 rest
          { polls := url :: k.polls, outputs := readyOut ++ d.1 ++ k.outputs,
            tokenHistory := next_timetoken :: k.tokenHistory, state := k.state, exit := k.exit }

/-- Model of `SubscribeLoop::run` itself: initializes the timetoken to the
cold-start default, then runs the loop. -/
def SubscribeLoop.run (s : LoopState) (events : List LoopEvent) : LoopRun :=
  runLoop { s with timetoken := Timetoken.default } events

/-- The returned timetokens of the successful responses of an event list,
in order. -/
def okTokens : List LoopEvent → List Timetoken
  | [] => []
  | .response (.ok (_, next)) :: rest => next :: okTokens rest
  | _ :: rest => okTokens rest

/-- Whether a successful response occurs before the first control message
(which breaks the loop). -/
def hasOkBeforeControl : List LoopEvent → Bool
  | [] => false
  | .control _ :: _ => false
  | .response (.ok _) :: _ => true
  | .response (.error _) :: rest => hasOkBeforeControl rest

/-- The decimal value of a digit string (the order the spec puts on
timetoken `t` components). -/
def decVal (s : String) : Nat := s.data.foldl (fun a c => a * 10 + (c.toNat - 48)) 0

/-- Comparison of timetokens by the decimal value of `t`. -/
def ttLe (a b : Timetoken) : Prop := decVal a.t ≤ decVal b.t

/-- Decidable monotonicity of a token sequence under `ttLe`. -/
def tokensMonotone : List Timetoken → Bool
  | [] => true
  | [_] => true
  | a :: b :: rest => decide (decVal a.t ≤ decVal b.t) && tokensMonotone (b :: rest)

/-- The sends the loop performs for one message when its routing key is
registered (empty list otherwise). -/
def sendsFor (channels : ChannelMap) (msg : Message) : List LoopOutput :=
  ((lookupChannel channels (msg.route.getD msg.channel)).getD []).map fun tx => LoopOutput.send tx msg

/-! ## `publish_request` (`src/lib.rs`) -/

/-- Marker for a UTF-8 decoding failure (`std::str::Utf8Error`). -/
inductive Utf8Failure where
  | invalid
deriving DecidableEq

/-- Marker for a JSON parse failure (`json::Error`). -/
inductive JsonFailure where
  | unexpected
deriving DecidableEq

/-- Model of `enum Error` from `src/lib.rs`. -/
inductive Error where
  | HyperError (e : HyperFailure)
  | Utf8Error (e : Utf8Failure)
  | JsonError (e : JsonFailure)
deriving DecidableEq

/-- One step of strict UTF-8 decoding: reads one scalar value from the front
of the byte list (with continuation, overlong, surrogate and range checks)
and returns it with the remaining bytes. -/
def utf8DecodeOne : List Nat → Option (Nat × List Nat)
  | [] => none
  | b0 :: rest =>
    if b0 < 128 then some (b0, rest)
    else if b0 < 194 then none
    else if b0 < 224 then
      if rest.length < 1 then none
      else
        let b1 := rest.getD 0 0
        if 128 ≤ b1 ∧ b1 < 192 then some ((b0 - 192) * 64 + (b1 - 128), rest.drop 1)
        else none
    else if b0 < 240 then
      if rest.length < 2 then none
      else
        let b1 := rest.getD 0 0
        let b2 := rest.getD 1 0
        let c := (b0 - 224) * 4096 + (b1 - 128) * 64 + (b2 - 128)
        if (128 ≤ b1 ∧ b1 < 192) ∧ (128 ≤ b2 ∧ b2 < 192) ∧ 2048 ≤ c ∧ (c < 55296 ∨ 57344 ≤ c)
        then some (c, rest.drop 2)
        else none
    else if b0 < 245 then
      if rest.length < 3 then none
      else
        let b1 := rest.getD 0 0
        let b2 := rest.getD 1 0
        let b3 := rest.getD 2 0
        let c := (b0 - 240) * 262144 + (b1 - 128) * 4096 + (b2 - 128) * 64 + (b3 - 128)
        if (128 ≤ b1 ∧ b1 < 192) ∧ (128 ≤ b2 ∧ b2 < 192) ∧ (128 ≤ b3 ∧ b3 < 192)
            ∧ 65536 ≤ c ∧ c < 1114112
        then some (c, rest.drop 3)
        else none
    else none

/-- Repeated UTF-8 decoding with a fuel bound; every scalar consumes at least
one byte, so fuel equal to the list length always suffices. -/
def utf8DecodeAux : Nat → List Nat → Option (List Char)
  | _, [] => some []
  | 0, _ :: _ => none
  | fuel + 1, b0 :: rest =>
    match utf8DecodeOne (b0 :: rest) with
    | none => none
    | some (c, r) => (utf8DecodeAux fuel r).map (Char.ofNat c :: ·)

/-- Strict UTF-8 decoder, modelling `std::str::from_utf8`; also the decoder
half of the round-trip law of the spec. -/
def utf8DecodeChars (l : List Nat) : Option (List Char) := utf8DecodeAux l.length l

/-- Model of collecting the hyper body chunk stream
(`while let Some(chunk) = body.next().await { bytes.extend(chunk?); }`):
the first failing chunk propagates as an error. -/
def collectBytes : List (Except HyperFailure (List Nat)) → Except HyperFailure (List Nat)
  | [] => .ok []
  | .error e :: _ => .error e
  | .ok chunk :: rest => (collectBytes rest).map (chunk ++ ·)

/-- Model of `publish_request` from `src/lib.rs`.  The transport result of
the HTTP GET is the `res` argument (an error means the request itself
failed); the body is a chunk stream.  The source calls `res.unwrap()`, so a
transport failure is a panic, modelled as `none`; chunk, UTF-8 and JSON
failures are returned as the corresponding `Error` variants; on success the
timetoken is `Display` of element 2 of the JSON array.  JSON parsing is the
external `json::parse`, taken as an argument. -/
def publish_request (parse : String → Except JsonFailure JsonValue)
    (res : Except HyperFailure (List (Except HyperFailure (List Nat)))) :
    Option (Except Error Timetoken) :=
  match res with
  | .error _ => none
  | .ok body =>
    match collectBytes body with
    | .error e => some (.error (.HyperError e))
    | .ok bytes =>
      match utf8DecodeChars bytes with
      | none => some (.error (.Utf8Error .invalid))
      | some chars =>
        match parse (String.mk chars) with
        | .error e => some (.error (.JsonError e))
        | .ok data_json => some (.ok { t := (data_json.idx 2).toDisplay, r := 0 })

/-! ## Client subscribe-loop lifecycle (`PubNub::subscribe` in `src/lib.rs`) -/

/-- The part of `struct PubNub` that manages the loop: the stored pipe
handle (`pipe: Option<Pipe>`), identified by the loop it connects to. -/
structure ClientState where
  pipe : Option Nat
deriving DecidableEq

/-- A client together with the set of currently running loop tasks. -/
structure ClientWorld where
  client : ClientState
  running : List Nat
  nextId : Nat
deriving DecidableEq

/-- What one call to `subscribe` did. -/
inductive SubscribeEffect where
  | sentAddTo (loopId : Nat) (channel : String) (tx : ChannelTx)
  | spawnedLoop (loopId : Nat) (channel : String) (tx : ChannelTx)
deriving DecidableEq

/-- Model of `PubNub::subscribe` (`src/lib.rs`, lines 365-434): when a pipe
is stored, send `Add` over it; otherwise create a pipe, spawn a fresh
subscribe loop and store the pipe. -/
def clientSubscribe (w : ClientWorld) (channel : String) (tx : ChannelTx) :
    ClientWorld × SubscribeEffect :=
  match w.client.pipe with
  | some loopId => (w, .sentAddTo loopId channel tx)
  | none =>
      ({ client := { pipe := some w.nextId },
         running := w.nextId :: w.running,
         nextId := w.nextId + 1 },
       .spawnedLoop w.nextId channel tx)

/-- The spawned loop task returns.  `src/lib.rs` contains no notification
mechanism for this, so the client state (its stored pipe) is untouched; only
the task disappears. -/
def loopTaskReturns (w : ClientWorld) (loopId : Nat) : ClientWorld :=
  { w with running := w.running.filter fun i => i != loopId }

/-! ## Percent-decoding (the spec's `Decode`; the repository contains no decoder) -/

/-- The value of a hexadecimal digit byte, accepting both letter cases. -/
def hexVal (c : Nat) : Option Nat :=
  if 48 ≤ c ∧ c ≤ 57 then some (c - 48)
  else if 65 ≤ c ∧ c ≤ 70 then some (c - 55)
  else if 97 ≤ c ∧ c ≤ 102 then some (c - 87)
  else none

/-- Modelled from the spec: percent-decoding of a byte sequence — `%` followed
by two hex digits yields the denoted byte, any other byte yields itself;
malformed escapes fail. -/
def pctDecodeBytes : List Nat → Option (List Nat)
  | [] => some []
  | b :: rest =>
    if b = 37 then
      if rest.length < 2 then none
      else
        (hexVal (rest.getD 0 0)).bind fun hv =>
        (hexVal (rest.getD 1 0)).bind fun lv =>
        (pctDecodeBytes (rest.drop 2)).map fun bs => (hv * 16 + lv) :: bs
    else (pctDecodeBytes rest).map fun bs => b :: bs
termination_by l => l.length
decreasing_by
  all_goals simp [List.length_drop]
  omega

/-- Modelled from the spec: the `Decode` of the round-trip law — percent-decode
the characters of the encoded string to bytes, then decode those bytes as
UTF-8. -/
def pct_decode (t : String) : Option String :=
  (pctDecodeBytes (t.data.map Char.toNat)).bind fun bs => (utf8DecodeChars bs).map String.mk

/-! ## Round-trip lemmas for UTF-8 and percent-encoding -/

theorem char_toNat_ofNat {n : Nat} (h : n.isValidChar) : (Char.ofNat n).toNat = n := by
  unfold Char.ofNat
  simp only [dif_pos h]
  rfl

theorem utf8EncodeNat_lt_256 (c : Nat) (hc : c < 1114112) :
    ∀ b ∈ utf8EncodeNat c, b < 256 := by
  intro b hb
  unfold utf8EncodeNat at hb
  split_ifs at hb with h1 h2 h3 <;>
    simp only [List.mem_cons, List.not_mem_nil, or_false] at hb
  · omega
  · rcases hb with rfl | rfl <;> omega
  · rcases hb with rfl | rfl | rfl <;> omega
  · rcases hb with rfl | rfl | rfl | rfl <;> omega

theorem utf8EncodeNat_ne_nil (c : Nat) : utf8EncodeNat c ≠ [] := by
  unfold utf8EncodeNat
  split_ifs <;> simp

theorem utf8DecodeOne_encode (c : Nat) (hv : c.isValidChar) (rest : List Nat) :
    utf8DecodeOne (utf8EncodeNat c ++ rest) = some (c, rest) := by
  have hbound : c < 1114112 := by rcases hv with h | h <;> omega
  unfold utf8EncodeNat
  by_cases h1 : c < 128
  · rw [if_pos h1, List.cons_append, List.nil_append]
    simp only [utf8DecodeOne]
    rw [if_pos h1]
  · rw [if_neg h1]
    by_cases h2 : c < 2048
    · rw [if_pos h2]
      simp only [List.cons_append, List.nil_append, utf8DecodeOne, List.getD_cons_zero,
        List.length_cons, List.drop_succ_cons, List.drop_zero]
      rw [if_neg (by omega), if_neg (by omega), if_pos (by omega), if_neg (by omega),
        if_pos (by constructor <;> omega)]
      simp only [Option.some.injEq, Prod.mk.injEq]
      exact ⟨by omega, trivial⟩
    · rw [if_neg h2]
      by_cases h3 : c < 65536
      · rw [if_pos h3]
        simp only [List.cons_append, List.nil_append, utf8DecodeOne, List.getD_cons_zero,
          List.getD_cons_succ, List.length_cons, List.drop_succ_cons, List.drop_zero]
        rw [if_neg (by omega), if_neg (by omega), if_neg (by omega), if_pos (by omega),
          if_neg (by omega)]
        have hc : (224 + c / 4096 - 224) * 4096 + (128 + c / 64 % 64 - 128) * 64
            + (128 + c % 64 - 128) = c := by omega
        rw [if_pos (by
          refine ⟨⟨by omega, by omega⟩, ⟨by omega, by omega⟩, ?_, ?_⟩
          · rw [hc]; omega
          · rw [hc]; rcases hv with h | h <;> omega)]
        simp only [Option.some.injEq, Prod.mk.injEq]
        exact ⟨by omega, trivial⟩
      · rw [if_neg h3]
        simp only [List.cons_append, List.nil_append, utf8DecodeOne, List.getD_cons_zero,
          List.getD_cons_succ, List.length_cons, List.drop_succ_cons, List.drop_zero]
        rw [if_neg (by omega), if_neg (by omega), if_neg (by omega), if_neg (by omega),
          if_pos (by omega), if_neg (by omega)]
        have hc : (240 + c / 262144 - 240) * 262144 + (128 + c / 4096 % 64 - 128) * 4096
            + (128 + c / 64 % 64 - 128) * 64 + (128 + c % 64 - 128) = c := by omega
        rw [if_pos (by
          refine ⟨⟨by omega, by omega⟩, ⟨by omega, by omega⟩, ⟨by omega, by omega⟩, ?_, ?_⟩
          · rw [hc]; omega
          · rw [hc]; omega)]
        simp only [Option.some.injEq, Prod.mk.injEq]
        exact ⟨by omega, trivial⟩

theorem utf8DecodeAux_encode (cs : List Char) :
    ∀ fuel : Nat, (cs.flatMap fun c => utf8EncodeNat c.toNat).length ≤ fuel →
    utf8DecodeAux fuel (cs.flatMap fun c => utf8EncodeNat c.toNat) = some cs := by
  induction cs with
  | nil => intro fuel _; simp [utf8DecodeAux]
  | cons c cs' ih =>
      intro fuel hfuel
      rw [List.flatMap_cons] at hfuel ⊢
      obtain ⟨b0, tl, henc⟩ :=
        List.exists_cons_of_ne_nil (utf8EncodeNat_ne_nil c.toNat)
      have hlen : (utf8EncodeNat c.toNat ++ cs'.flatMap fun x => utf8EncodeNat x.toNat).length
          = tl.length + 1 + (cs'.flatMap fun x => utf8EncodeNat x.toNat).length := by
        rw [List.length_append, henc]
        simp only [List.length_cons]
      match fuel with
      | 0 => rw [hlen] at hfuel; omega
      | k + 1 =>
          rw [henc, List.cons_append]
          simp only [utf8DecodeAux]
          rw [← List.cons_append, ← henc, utf8DecodeOne_encode c.toNat c.valid]
          show Option.map (fun x => Char.ofNat c.toNat :: x)
              (utf8DecodeAux k (cs'.flatMap fun x => utf8EncodeNat x.toNat)) = some (c :: cs')
          rw [ih k (by rw [hlen] at hfuel; omega)]
          show some (Char.ofNat c.toNat :: cs') = some (c :: cs')
          rw [Char.ofNat_toNat]

theorem utf8DecodeChars_utf8Chars (cs : List Char) :
    utf8DecodeChars (cs.flatMap fun c => utf8EncodeNat c.toNat) = some cs :=
  utf8DecodeAux_encode cs _ le_rfl

theorem hexVal_hexDigitUpper (x : Nat) (hx : x < 16) :
    hexVal (hexDigitUpper x) = some x := by
  unfold hexVal hexDigitUpper
  split_ifs
  all_goals try (exfalso; omega)
  all_goals simp only [Option.some.injEq]
  all_goals omega

theorem isAsciiAlphanumByte_range (b : Nat) (h : isAsciiAlphanumByte b = true) :
    48 ≤ b ∧ b ≤ 122 := by
  unfold isAsciiAlphanumByte at h
  simp only [Bool.or_eq_true, Bool.and_eq_true, decide_eq_true_eq] at h
  omega

theorem hexDigitUpper_le_70 (x : Nat) (hx : x < 16) : hexDigitUpper x ≤ 70 := by
  unfold hexDigitUpper
  split <;> omega

theorem pctEncodeByte_lt_128 (b : Nat) (hb : b < 256) :
    ∀ x ∈ pctEncodeByte b, x < 128 := by
  intro x hx
  unfold pctEncodeByte at hx
  split at hx
  · next hal =>
      simp only [List.mem_cons, List.not_mem_nil, or_false] at hx
      have := isAsciiAlphanumByte_range b hal
      omega
  · simp only [List.mem_cons, List.not_mem_nil, or_false] at hx
    have h1 := hexDigitUpper_le_70 (b / 16) (by omega)
    have h2 := hexDigitUpper_le_70 (b % 16) (by omega)
    rcases hx with rfl | rfl | rfl <;> omega

theorem pctDecodeBytes_encode (bs : List Nat) (h : ∀ b ∈ bs, b < 256) :
    pctDecodeBytes (bs.flatMap pctEncodeByte) = some bs := by
  induction bs with
  | nil => simp [pctDecodeBytes]
  | cons b rest ih =>
      have hb : b < 256 := h b (List.mem_cons_self b rest)
      have hrest := ih fun x hx => h x (List.mem_cons_of_mem b hx)
      rw [List.flatMap_cons]
      by_cases hal : isAsciiAlphanumByte b
      · have hrange := isAsciiAlphanumByte_range b hal
        rw [show pctEncodeByte b = [b] from by unfold pctEncodeByte; rw [if_pos hal]]
        rw [List.singleton_append]
        rw [pctDecodeBytes]
        rw [if_neg (by omega : ¬ b = 37), hrest]
        rfl
      · rw [show pctEncodeByte b = [37, hexDigitUpper (b / 16), hexDigitUpper (b % 16)] from by
          unfold pctEncodeByte; rw [if_neg hal]]
        rw [List.cons_append, List.cons_append, List.cons_append, List.nil_append]
        rw [pctDecodeBytes]
        rw [if_pos rfl, if_neg (by simp only [List.length_cons]; omega)]
        simp only [List.getD_cons_zero, List.getD_cons_succ, List.drop_succ_cons,
          List.drop_zero]
        rw [hexVal_hexDigitUpper (b / 16) (by omega), hexVal_hexDigitUpper (b % 16) (by omega)]
        show (pctDecodeBytes (rest.flatMap pctEncodeByte)).map
            (fun bs => (b / 16 * 16 + b % 16) :: bs) = some (b :: rest)
        rw [hrest]
        show some ((b / 16 * 16 + b % 16) :: rest) = some (b :: rest)
        have : b / 16 * 16 + b % 16 = b := by omega
        rw [this]

theorem utf8Bytes_lt_256 (s : String) : ∀ b ∈ utf8Bytes s, b < 256 := by
  intro b hb
  unfold utf8Bytes at hb
  rw [List.mem_flatMap] at hb
  obtain ⟨c, _, hbc⟩ := hb
  have hv : c.toNat.isValidChar := c.valid
  have : c.toNat < 1114112 := by rcases hv with h | h <;> omega
  exact utf8EncodeNat_lt_256 c.toNat this b hbc

theorem pct_decode_encode (s : String) : pct_decode (utf8_percent_encode s) = some s := by
  have hlt : ∀ x ∈ (utf8Bytes s).flatMap pctEncodeByte, x < 128 := by
    intro x hx
    rw [List.mem_flatMap] at hx
    obtain ⟨b, hb, hxb⟩ := hx
    exact pctEncodeByte_lt_128 b (utf8Bytes_lt_256 s b hb) x hxb
  have hdata : (utf8_percent_encode s).data.map Char.toNat
      = (utf8Bytes s).flatMap pctEncodeByte := by
    show ((((utf8Bytes s).flatMap pctEncodeByte).map Char.ofNat).map Char.toNat) = _
    rw [List.map_map]
    refine ((List.map_congr_left ?_).trans (List.map_id _))
    intro x hx
    simp only [Function.comp_apply, id_eq]
    exact char_toNat_ofNat (Or.inl (by have := hlt x hx; omega))
  unfold pct_decode
  rw [hdata, pctDecodeBytes_encode _ (utf8Bytes_lt_256 s)]
  show (utf8DecodeChars (utf8Bytes s)).map String.mk = some s
  unfold utf8Bytes
  rw [utf8DecodeChars_utf8Chars]
  cases s
  rfl

/-! ## Step lemmas for the subscribe-loop model -/

theorem runLoop_nil (s : LoopState) :
    runLoop s [] = { polls := []
                     outputs := []
                     tokenHistory := []
                     state := s
                     exit := .pending } := rfl

theorem runLoop_control (s : LoopState) (m : PipeMessage) (rest : List LoopEvent) :
    runLoop s (.control m :: rest)
      = { polls := [subscribe_url s.origin s.subscribe_key s.encoded_channels s.timetoken]
          outputs := []
          tokenHistory := [s.timetoken]
          state := s
          exit := .broke } := rfl

theorem runLoop_error (s : LoopState) (f : HyperFailure) (rest : List LoopEvent) :
    runLoop s (.response (.error f) :: rest)
      = { polls := subscribe_url s.origin s.subscribe_key s.encoded_channels s.timetoken
            :: (runLoop s rest).polls
          outputs := (runLoop s rest).outputs
          tokenHistory := s.timetoken :: (runLoop s rest).tokenHistory
          state := (runLoop s rest).state
          exit := (runLoop s rest).exit } := rfl

theorem runLoop_ok (s : LoopState) (messages : List Message) (next : Timetoken)
    (rest : List LoopEvent) :
    runLoop s (.response (.ok (messages, next)) :: rest)
      = if (deliver s.channels messages).2 then
          { polls := [subscribe_url s.origin s.subscribe_key s.encoded_channels s.timetoken]
            outputs := (if s.timetoken.t = "0" then [LoopOutput.ready] else [])
              ++ (deliver s.channels messages).1
            tokenHistory := [next]
            state := { s with timetoken := next }
            exit := .panicked }
        else
          { polls := subscribe_url s.origin s.subscribe_key s.encoded_channels s.timetoken
              :: (runLoop { s with timetoken := next } rest).polls
            outputs := (if s.timetoken.t = "0" then [LoopOutput.ready] else [])
              ++ (deliver s.channels messages).1
              ++ (runLoop { s with timetoken := next } rest).outputs
            tokenHistory := next :: (runLoop { s with timetoken := next } rest).tokenHistory
            state := (runLoop { s with timetoken := next } rest).state
            exit := (runLoop { s with timetoken := next } rest).exit } := rfl

theorem runLoop_ok_panic (s : LoopState) (messages : List Message) (next : Timetoken)
    (rest : List LoopEvent) (h : (deliver s.channels messages).2 = true) :
    runLoop s (.response (.ok (messages, next)) :: rest)
      = { polls := [subscribe_url s.origin s.subscribe_key s.encoded_channels s.timetoken]
          outputs := (if s.timetoken.t = "0" then [LoopOutput.ready] else [])
            ++ (deliver s.channels messages).1
          tokenHistory := [next]
          state := { s with timetoken := next }
          exit := .panicked } := by
  rw [runLoop_ok, if_pos h]

theorem runLoop_ok_cont (s : LoopState) (messages : List Message) (next : Timetoken)
    (rest : List LoopEvent) (h : (deliver s.channels messages).2 = false) :
    runLoop s (.response (.ok (messages, next)) :: rest)
      = { polls := subscribe_url s.origin s.subscribe_key s.encoded_channels s.timetoken
            :: (runLoop { s with timetoken := next } rest).polls
          outputs := (if s.timetoken.t = "0" then [LoopOutput.ready] else [])
            ++ (deliver s.channels messages).1
            ++ (runLoop { s with timetoken := next } rest).outputs
          tokenHistory := next :: (runLoop { s with timetoken := next } rest).tokenHistory
          state := (runLoop { s with timetoken := next } rest).state
          exit := (runLoop { s with timetoken := next } rest).exit } := by
  rw [runLoop_ok, if_neg (by simp [h])]

theorem okTokens_cons_control (m : PipeMessage) (rest : List LoopEvent) :
    okTokens (LoopEvent.control m :: rest) = okTokens rest := rfl

theorem okTokens_cons_error (f : HyperFailure) (rest : List LoopEvent) :
    okTokens (LoopEvent.response (Except.error f) :: rest) = okTokens rest := rfl

theorem okTokens_cons_ok (messages : List Message) (next : Timetoken) (rest : List LoopEvent) :
    okTokens (LoopEvent.response (Except.ok (messages, next)) :: rest)
      = next :: okTokens rest := rfl

theorem tokensMonotone_cons_cons (a b : Timetoken) (l : List Timetoken) :
    tokensMonotone (a :: b :: l)
      = (decide (decVal a.t ≤ decVal b.t) && tokensMonotone (b :: l)) := rfl

/-- A sample message used to instantiate delivery statements. -/
def mkMessage (route : Option String) (channel : String) : Message :=
  { message_type := .Publish
    route := route
    channel := channel
    json := .null
    metadata := .null
    timetoken := { t := "17000000000000000", r := 0 }
    client := none
    subscribe_key := "demo"
    flags := 0 }

/-! ## Claim theorems -/

/-- C1: the claim says an `Add` control message received mid-poll inserts the
listener, recomputes the encoded channel string and continues to the next
iteration.  The code instead breaks out of the loop unconditionally on any
pipe message: here an `Add` for a new channel leaves the channel map and the
encoded string untouched, produces no further poll, and terminates the loop. -/
theorem subscribe_loop_breaks_on_add :
    (SubscribeLoop.run (SubscribeLoop.new "ps.pndsn.com" "Rust-Agent" "demo"
        [("demo", [0])] [])
      [LoopEvent.control (PipeMessage.Add (ListenerType.Channel "extra") 1),
       LoopEvent.response (Except.ok ([], { t := "15000000000000000", r := 1 }))]).exit
      = LoopExit.broke
    ∧ (SubscribeLoop.run (SubscribeLoop.new "ps.pndsn.com" "Rust-Agent" "demo"
        [("demo", [0])] [])
      [LoopEvent.control (PipeMessage.Add (ListenerType.Channel "extra") 1),
       LoopEvent.response (Except.ok ([], { t := "15000000000000000", r := 1 }))]).state.channels
      = [("demo", [0])]
    ∧ (SubscribeLoop.run (SubscribeLoop.new "ps.pndsn.com" "Rust-Agent" "demo"
        [("demo", [0])] [])
      [LoopEvent.control (PipeMessage.Add (ListenerType.Channel "extra") 1),
       LoopEvent.response (Except.ok ([], { t := "15000000000000000", r := 1 }))]).state.encoded_channels
      = "demo"
    ∧ (SubscribeLoop.run (SubscribeLoop.new "ps.pndsn.com" "Rust-Agent" "demo"
        [("demo", [0])] [])
      [LoopEvent.control (PipeMessage.Add (ListenerType.Channel "extra") 1),
       LoopEvent.response (Except.ok ([], { t := "15000000000000000", r := 1 }))]).polls
      = ["https://ps.pndsn.com/v2/subscribe/demo/demo/0?tt=0&tr=0"]
    ∧ (SubscribeLoop.run (SubscribeLoop.new "ps.pndsn.com" "Rust-Agent" "demo"
        [("demo", [0])] [])
      [LoopEvent.control (PipeMessage.Add (ListenerType.Channel "extra") 1),
       LoopEvent.response (Except.ok ([], { t := "15000000000000000", r := 1 }))]).outputs
      = []
    ∧ (SubscribeLoop.run (SubscribeLoop.new "ps.pndsn.com" "Rust-Agent" "demo"
        [("demo", [0])] [])
      [LoopEvent.control (PipeMessage.Add (ListenerType.Channel "extra") 1),
       LoopEvent.response (Except.ok ([], { t := "15000000000000000", r := 1 }))]).state.timetoken
      = { t := "0", r := 0 } :=
  ⟨rfl, rfl, rfl, rfl, rfl, rfl⟩

/-- C6: the claim says every transport failure during publish is returned as
an error variant and publish never panics.  The code calls `res.unwrap()` on
the transport result, so a failing HTTP GET is a panic (`none`), not an
`Error::HyperError`; chunk, UTF-8 and JSON failures are indeed returned as
their variants, and a good response yields the timetoken at array index 2. -/
theorem publish_request_panics_on_transport_failure :
    publish_request (fun _ => Except.error JsonFailure.unexpected)
        (Except.error { code := 7 }) = none
    ∧ publish_request (fun _ => Except.error JsonFailure.unexpected)
        (Except.ok [Except.error { code := 3 }])
        = some (Except.error (Error.HyperError { code := 3 }))
    ∧ publish_request (fun _ => Except.error JsonFailure.unexpected)
        (Except.ok [Except.ok [255]])
        = some (Except.error (Error.Utf8Error Utf8Failure.invalid))
    ∧ publish_request (fun _ => Except.error JsonFailure.unexpected)
        (Except.ok [Except.ok [72]])
        = some (Except.error (Error.JsonError JsonFailure.unexpected))
    ∧ publish_request
        (fun _ => Except.ok (JsonValue.arr
          [JsonValue.num 1, JsonValue.str "Sent", JsonValue.str "17000000000000000"]))
        (Except.ok [Except.ok [72]])
        = some (Except.ok { t := "17000000000000000", r := 0 }) :=
  ⟨rfl, rfl, rfl, rfl, rfl⟩

/-- C7: the claim says the stored loop handle is cleared when the loop task
returns, so a later `subscribe()` starts a fresh loop.  In the code nothing
clears `self.pipe`: after the only loop task has returned, the pipe is still
stored, and the next `subscribe()` sends `Add` to the terminated loop instead
of spawning a fresh one. -/
theorem client_pipe_not_cleared_after_loop_exit :
    (loopTaskReturns
      (clientSubscribe { client := { pipe := none }, running := [], nextId := 0 } "a" 0).1
      0).client.pipe = some 0
    ∧ (loopTaskReturns
      (clientSubscribe { client := { pipe := none }, running := [], nextId := 0 } "a" 0).1
      0).running = []
    ∧ (clientSubscribe (loopTaskReturns
      (clientSubscribe { client := { pipe := none }, running := [], nextId := 0 } "a" 0).1
      0) "b" 1).2 = SubscribeEffect.sentAddTo 0 "b" 1
    ∧ (clientSubscribe (loopTaskReturns
      (clientSubscribe { client := { pipe := none }, running := [], nextId := 0 } "a" 0).1
      0) "b" 1).1.running = [] :=
  ⟨rfl, rfl, rfl, rfl⟩

/-- C8: `MessageType::from_json` maps the numeric tag 0 to `Publish`, 1 to
`Signal`, 2 to `Objects`, 3 to `Action` and every other `u32` value `n` to
`Unknown(n)`; the numeric tag never produces `Presence`. -/
theorem message_type_tag_mapping :
    MessageType.from_json (.num 0) = .Publish
    ∧ MessageType.from_json (.num 1) = .Signal
    ∧ MessageType.from_json (.num 2) = .Objects
    ∧ MessageType.from_json (.num 3) = .Action
    ∧ (∀ n : Nat, 4 ≤ n → n < 4294967296 →
        MessageType.from_json (.num (Int.ofNat n)) = .Unknown n)
    ∧ (∀ j : JsonValue, MessageType.from_json j ≠ .Presence) := by
  refine ⟨rfl, rfl, rfl, rfl, ?_, ?_⟩
  · intro n h4 hlt
    have ha : (JsonValue.num (Int.ofNat n)).as_u32 = some n := by
      simp only [JsonValue.as_u32]
      rw [if_pos ⟨Int.ofNat_nonneg n, by exact Int.ofNat_lt.mpr hlt⟩]
      rfl
    simp only [MessageType.from_json, ha, Option.getD_some]
    obtain ⟨m, rfl⟩ : ∃ m, n = m + 4 := ⟨n - 4, by omega⟩
    rfl
  · intro j h
    unfold MessageType.from_json at h
    revert h
    generalize (JsonValue.as_u32 j).getD 0 = k
    intro h
    rcases k with _ | _ | _ | _ | m <;> exact MessageType.noConfusion h

/-- Witness for C8 at the concrete tag 7. -/
theorem message_type_tag_mapping_witness :
    MessageType.from_json (.num (Int.ofNat 7)) = .Unknown 7 :=
  message_type_tag_mapping.2.2.2.2.1 7 (by decide) (by decide)

/-- C9: `publish_with_metadata` builds the URL from the fixed path shape with
the channel and the JSON-stringified payload percent-encoded over the
non-alphanumeric byte set; in particular, with keys `demo`, channel `demo`
and the JSON string payload of three characters `Hi!`, the URL is exactly the
one in the claim. -/
theorem publish_url_shape_and_example :
    (∀ (origin pub_key sub_key channel : String) (message : JsonValue),
      publish_url origin pub_key sub_key channel message =
        "https://" ++ origin ++ "/publish/" ++ pub_key ++ "/" ++ sub_key ++ "/0/"
          ++ utf8_percent_encode channel ++ "/0/"
          ++ utf8_percent_encode (json_stringify message))
    ∧ publish_url "ps.pndsn.com" "demo" "demo" "demo" (.str "Hi!")
        = "https://ps.pndsn.com/publish/demo/demo/0/demo/0/%22Hi%21%22" := by
  constructor
  · intro origin pub_key sub_key channel message
    rfl
  · have hdump : json_stringify (JsonValue.str "Hi!") = "\x22Hi!\x22" := by
      simp [json_stringify, JsonValue.dump]
      decide
    simp only [publish_url, hdump]
    decide

/-! ## Delivery and Ready helpers -/

theorem deliver_cons_some (channels : ChannelMap) (m : Message) (rest : List Message)
    (l : List ChannelTx) (hl : lookupChannel channels (m.route.getD m.channel) = some l) :
    deliver channels (m :: rest)
      = ((l.map fun tx => LoopOutput.send tx m) ++ (deliver channels rest).1,
         (deliver channels rest).2) := by
  show (match lookupChannel channels (m.route.getD m.channel) with
    | none => ([], true)
    | some listeners =>
        ((listeners.map fun tx => LoopOutput.send tx m) ++ (deliver channels rest).1,
         (deliver channels rest).2)) = _
  rw [hl]

theorem deliver_cons_none (channels : ChannelMap) (m : Message) (rest : List Message)
    (hl : lookupChannel channels (m.route.getD m.channel) = none) :
    deliver channels (m :: rest) = ([], true) := by
  show (match lookupChannel channels (m.route.getD m.channel) with
    | none => ([], true)
    | some listeners =>
        ((listeners.map fun tx => LoopOutput.send tx m) ++ (deliver channels rest).1,
         (deliver channels rest).2)) = _
  rw [hl]

theorem deliver_no_ready (channels : ChannelMap) (ms : List Message) :
    LoopOutput.ready ∉ (deliver channels ms).1 := by
  induction ms with
  | nil => exact List.not_mem_nil _
  | cons m rest ih =>
      cases hl : lookupChannel channels (m.route.getD m.channel) with
      | none =>
          rw [deliver_cons_none channels m rest hl]
          exact List.not_mem_nil _
      | some l =>
          rw [deliver_cons_some channels m rest l hl]
          intro hmem
          rw [List.mem_append] at hmem
          rcases hmem with hm | hm
          · obtain ⟨tx, _, habs⟩ := List.mem_map.mp hm
            exact LoopOutput.noConfusion habs
          · exact ih hm

theorem deliver_fanout (channels : ChannelMap) (msgs : List Message)
    (h : ∀ m ∈ msgs, (lookupChannel channels (m.route.getD m.channel)).isSome = true) :
    deliver channels msgs = (msgs.flatMap (sendsFor channels), false) := by
  induction msgs with
  | nil => rfl
  | cons m rest ih =>
      obtain ⟨l, hl⟩ := Option.isSome_iff_exists.mp (h m (List.mem_cons_self m rest))
      have ihr := ih fun x hx => h x (List.mem_cons_of_mem m hx)
      have hs : sendsFor channels m = l.map fun tx => LoopOutput.send tx m := by
        unfold sendsFor
        rw [hl]
        rfl
      rw [deliver_cons_some channels m rest l hl, ihr, List.flatMap_cons, hs]

theorem loop_no_ready_when_warm (es : List LoopEvent) : ∀ s : LoopState,
    s.timetoken.t ≠ "0" → (∀ tt ∈ okTokens es, tt.t ≠ "0") →
    LoopOutput.ready ∉ (runLoop s es).outputs := by
  induction es with
  | nil =>
      intro s _ _
      rw [runLoop_nil]
      exact List.not_mem_nil _
  | cons e rest ih =>
      intro s h0 hok
      match e with
      | .control m =>
          rw [runLoop_control]
          exact List.not_mem_nil _
      | .response (.error f) =>
          rw [runLoop_error]
          exact ih s h0 fun tt h => hok tt (by rw [okTokens_cons_error]; exact h)
      | .response (.ok (messages, next)) =>
          have hnext : next.t ≠ "0" :=
            hok next (by rw [okTokens_cons_ok]; exact List.mem_cons_self _ _)
          have hok' : ∀ tt ∈ okTokens rest, tt.t ≠ "0" :=
            fun tt h => hok tt (by rw [okTokens_cons_ok]; exact List.mem_cons_of_mem _ h)
          cases hd : (deliver s.channels messages).2 with
          | true =>
              rw [runLoop_ok_panic s messages next rest hd, if_neg h0]
              intro hmem
              have hmem' : LoopOutput.ready ∈ (deliver s.channels messages).1 := hmem
              exact deliver_no_ready s.channels messages hmem'
          | false =>
              rw [runLoop_ok_cont s messages next rest hd, if_neg h0]
              intro hmem
              have hmem' : LoopOutput.ready ∈ (deliver s.channels messages).1
                  ++ (runLoop { s with timetoken := next } rest).outputs := hmem
              rw [List.mem_append] at hmem'
              rcases hmem' with hm | hm
              · exact deliver_no_ready s.channels messages hm
              · exact ih { s with timetoken := next } hnext hok' hm

theorem runLoop_ready_once (es : List LoopEvent) : ∀ s : LoopState,
    s.timetoken.t = "0" → (∀ tt ∈ okTokens es, tt.t ≠ "0") →
    (hasOkBeforeControl es = true →
      ∃ tail, (runLoop s es).outputs = LoopOutput.ready :: tail ∧ LoopOutput.ready ∉ tail)
    ∧ (hasOkBeforeControl es = false → (runLoop s es).outputs = []) := by
  induction es with
  | nil =>
      intro s _ _
      exact ⟨fun h => Bool.noConfusion h, fun _ => by rw [runLoop_nil]⟩
  | cons e rest ih =>
      intro s h0 hok
      match e with
      | .control m =>
          exact ⟨fun h => Bool.noConfusion h, fun _ => by rw [runLoop_control]⟩
      | .response (.error f) =>
          have hok' : ∀ tt ∈ okTokens rest, tt.t ≠ "0" :=
            fun tt h => hok tt (by rw [okTokens_cons_error]; exact h)
          have IH := ih s h0 hok'
          constructor
          · intro h
            obtain ⟨tail, htail, hmem⟩ := IH.1 h
            refine ⟨tail, ?_, hmem⟩
            rw [runLoop_error]
            exact htail
          · intro h
            rw [runLoop_error]
            exact IH.2 h
      | .response (.ok (messages, next)) =>
          have hnext : next.t ≠ "0" :=
            hok next (by rw [okTokens_cons_ok]; exact List.mem_cons_self _ _)
          have hok' : ∀ tt ∈ okTokens rest, tt.t ≠ "0" :=
            fun tt h => hok tt (by rw [okTokens_cons_ok]; exact List.mem_cons_of_mem _ h)
          constructor
          · intro _
            cases hd : (deliver s.channels messages).2 with
            | true =>
                refine ⟨(deliver s.channels messages).1, ?_, deliver_no_ready _ _⟩
                rw [runLoop_ok_panic s messages next rest hd, if_pos h0]
                rfl
            | false =>
                refine ⟨(deliver s.channels messages).1
                    ++ (runLoop { s with timetoken := next } rest).outputs, ?_, ?_⟩
                · rw [runLoop_ok_cont s messages next rest hd, if_pos h0]
                  rfl
                · intro hmem
                  rw [List.mem_append] at hmem
                  rcases hmem with hm | hm
                  · exact deliver_no_ready s.channels messages hm
                  · exact loop_no_ready_when_warm rest { s with timetoken := next } hnext hok' hm
          · intro h
            exact Bool.noConfusion h

/-! ## Timetoken history helpers -/

theorem runLoop_history_mem (es : List LoopEvent) : ∀ (s : LoopState) (tt : Timetoken),
    tt ∈ (runLoop s es).tokenHistory → tt = s.timetoken ∨ tt ∈ okTokens es := by
  induction es with
  | nil =>
      intro s tt h
      rw [runLoop_nil] at h
      exact absurd h (List.not_mem_nil _)
  | cons e rest ih =>
      intro s tt h
      match e with
      | .control m =>
          rw [runLoop_control] at h
          have h' : tt ∈ [s.timetoken] := h
          exact Or.inl (List.mem_singleton.mp h')
      | .response (.error f) =>
          rw [runLoop_error] at h
          have h' : tt ∈ s.timetoken :: (runLoop s rest).tokenHistory := h
          rcases List.mem_cons.mp h' with rfl | hm
          · exact Or.inl rfl
          · rcases ih s tt hm with h2 | ho
            · exact Or.inl h2
            · exact Or.inr (by rw [okTokens_cons_error]; exact ho)
      | .response (.ok (messages, next)) =>
          cases hd : (deliver s.channels messages).2 with
          | true =>
              rw [runLoop_ok_panic s messages next rest hd] at h
              have h' : tt ∈ [next] := h
              right
              rw [okTokens_cons_ok, List.mem_singleton.mp h']
              exact List.mem_cons_self _ _
          | false =>
              rw [runLoop_ok_cont s messages next rest hd] at h
              have h' : tt ∈ next :: (runLoop { s with timetoken := next } rest).tokenHistory := h
              rcases List.mem_cons.mp h' with rfl | hm
              · exact Or.inr (by rw [okTokens_cons_ok]; exact List.mem_cons_self _ _)
              · rcases ih { s with timetoken := next } tt hm with h2 | ho
                · right
                  rw [okTokens_cons_ok]
                  have h3 : tt = next := h2
                  rw [h3]
                  exact List.mem_cons_self _ _
                · exact Or.inr (by rw [okTokens_cons_ok]; exact List.mem_cons_of_mem _ ho)

theorem runLoop_history_mono (es : List LoopEvent) : ∀ s : LoopState,
    tokensMonotone (s.timetoken :: okTokens es) = true →
    tokensMonotone (s.timetoken :: (runLoop s es).tokenHistory) = true := by
  induction es with
  | nil => intro s _; rfl
  | cons e rest ih =>
      intro s htm
      match e with
      | .control m =>
          rw [runLoop_control]
          show (decide (decVal s.timetoken.t ≤ decVal s.timetoken.t)
            && tokensMonotone [s.timetoken]) = true
          simp [tokensMonotone]
      | .response (.error f) =>
          rw [runLoop_error]
          show (decide (decVal s.timetoken.t ≤ decVal s.timetoken.t)
            && tokensMonotone (s.timetoken :: (runLoop s rest).tokenHistory)) = true
          rw [okTokens_cons_error] at htm
          rw [ih s htm]
          simp
      | .response (.ok (messages, next)) =>
          rw [okTokens_cons_ok, tokensMonotone_cons_cons] at htm
          rw [Bool.and_eq_true, decide_eq_true_eq] at htm
          obtain ⟨hle, htm'⟩ := htm
          cases hd : (deliver s.channels messages).2 with
          | true =>
              rw [runLoop_ok_panic s messages next rest hd]
              show (decide (decVal s.timetoken.t ≤ decVal next.t)
                && tokensMonotone [next]) = true
              simp [tokensMonotone, hle]
          | false =>
              rw [runLoop_ok_cont s messages next rest hd]
              show (decide (decVal s.timetoken.t ≤ decVal next.t)
                && tokensMonotone (next
                  :: (runLoop { s with timetoken := next } rest).tokenHistory)) = true
              have h2 : tokensMonotone (next
                  :: (runLoop { s with timetoken := next } rest).tokenHistory) = true :=
                ih { s with timetoken := next } htm'
              rw [h2]
              simp [hle]

/-! ## Remaining claim theorems -/

/-- C2: for every run of the subscribe loop (driven by any sequence of select
resolutions whose successful responses carry non-cold timetokens, as the
server guarantees), the `Ready` output is emitted exactly once — as the first
output, produced by the first successful long-poll — when a success occurs
before the loop is broken, and never otherwise; no later transition re-emits
it. -/
theorem ready_emitted_exactly_once (cfg : LoopState) (es : List LoopEvent)
    (hok : ∀ tt ∈ okTokens es, tt.t ≠ "0") :
    (hasOkBeforeControl es = true →
      ∃ tail, (SubscribeLoop.run cfg es).outputs = LoopOutput.ready :: tail
        ∧ LoopOutput.ready ∉ tail)
    ∧ (hasOkBeforeControl es = false → (SubscribeLoop.run cfg es).outputs = []) :=
  runLoop_ready_once es { cfg with timetoken := Timetoken.default } rfl hok

/-- Witness for C2: a single successful long-poll emits `Ready` first. -/
theorem ready_emitted_exactly_once_witness :
    ∃ tail, (SubscribeLoop.run (SubscribeLoop.new "ps.pndsn.com" "Rust-Agent" "demo"
        [("demo", [0])] [])
      [LoopEvent.response (Except.ok ([], { t := "15000000000000000", r := 1 }))]).outputs
      = LoopOutput.ready :: tail ∧ LoopOutput.ready ∉ tail :=
  (ready_emitted_exactly_once _ _ (by decide)).1 rfl

/-- C3: the loop's stored timetoken starts at the cold-start value `("0", 0)`;
a successful response stores the returned next-timetoken unconditionally
(even with an empty message batch), a transport error leaves it unchanged,
every stored value is either the initial one or one returned by a successful
response (never re-assigned the cold-start default), and the stored sequence
is monotone whenever the responses' timetokens are. -/
theorem timetoken_discipline :
    Timetoken.default = { t := "0", r := 0 }
    ∧ (∀ (cfg : LoopState) (es : List LoopEvent),
        SubscribeLoop.run cfg es = runLoop { cfg with timetoken := { t := "0", r := 0 } } es)
    ∧ (∀ (s : LoopState) (messages : List Message) (next : Timetoken) (rest : List LoopEvent),
        (runLoop s (LoopEvent.response (Except.ok (messages, next)) :: rest)).tokenHistory.head?
          = some next)
    ∧ (∀ (s : LoopState) (f : HyperFailure) (rest : List LoopEvent),
        (runLoop s (LoopEvent.response (Except.error f) :: rest)).tokenHistory.head?
          = some s.timetoken)
    ∧ (∀ (s : LoopState) (es : List LoopEvent) (tt : Timetoken),
        tt ∈ (runLoop s es).tokenHistory → tt = s.timetoken ∨ tt ∈ okTokens es)
    ∧ (∀ (s : LoopState) (es : List LoopEvent),
        tokensMonotone (s.timetoken :: okTokens es) = true →
        tokensMonotone (s.timetoken :: (runLoop s es).tokenHistory) = true) := by
  refine ⟨rfl, fun cfg es => rfl, ?_, ?_, ?_, ?_⟩
  · intro s messages next rest
    cases hd : (deliver s.channels messages).2 with
    | true =>
        rw [runLoop_ok_panic s messages next rest hd]
        rfl
    | false =>
        rw [runLoop_ok_cont s messages next rest hd]
        rfl
  · intro s f rest
    rw [runLoop_error]
    rfl
  · intro s es tt h
    exact runLoop_history_mem es s tt h
  · intro s es h
    exact runLoop_history_mono es s h

/-- Witness for C3: a run with two increasing response timetokens keeps the
stored timetoken monotone. -/
theorem timetoken_discipline_witness :
    tokensMonotone ((SubscribeLoop.new "ps.pndsn.com" "Rust-Agent" "demo"
        [("demo", [0])] []).timetoken
      :: (runLoop (SubscribeLoop.new "ps.pndsn.com" "Rust-Agent" "demo" [("demo", [0])] [])
        [LoopEvent.response (Except.ok ([], { t := "3", r := 0 })),
         LoopEvent.response (Except.ok ([], { t := "15", r := 0 }))]).tokenHistory) = true :=
  timetoken_discipline.2.2.2.2.2
    (SubscribeLoop.new "ps.pndsn.com" "Rust-Agent" "demo" [("demo", [0])] [])
    [LoopEvent.response (Except.ok ([], { t := "3", r := 0 })),
     LoopEvent.response (Except.ok ([], { t := "15", r := 0 }))]
    (by decide)

/-- C4: when every message of a batch has a registered routing key, the
distribution step sends exactly one clone of each message to every listener
of that key, listeners in insertion order, messages in server order, and does
not panic. -/
theorem delivery_fanout_in_order (channels : ChannelMap) (msgs : List Message)
    (h : ∀ m ∈ msgs, (lookupChannel channels (m.route.getD m.channel)).isSome = true) :
    deliver channels msgs = (msgs.flatMap (sendsFor channels), false) :=
  deliver_fanout channels msgs h

/-- Witness for C4: one message on a channel with two listeners is cloned to
both, in insertion order. -/
theorem delivery_fanout_in_order_witness :
    deliver [("x", [1, 2])] [mkMessage none "x"]
      = ([mkMessage none "x"].flatMap (sendsFor [("x", [1, 2])]), false) :=
  delivery_fanout_in_order [("x", [1, 2])] [mkMessage none "x"] (by decide)

/-- C5: a message whose routing key (`route` if present, else `channel`) has
no entry in the loop's channel map makes the delivery step's `.unwrap()`
panic, which terminates the loop task; the delivery step is panic-free
exactly under the precondition that every routing key is registered. -/
theorem delivery_unwrap_panics :
    (∀ (channels : ChannelMap) (m : Message) (rest : List Message),
        lookupChannel channels (m.route.getD m.channel) = none →
        deliver channels (m :: rest) = ([], true))
    ∧ (∀ (s : LoopState) (messages : List Message) (next : Timetoken),
        (deliver s.channels messages).2 = true →
        (runLoop s [LoopEvent.response (Except.ok (messages, next))]).exit
          = LoopExit.panicked)
    ∧ (∀ (channels : ChannelMap) (msgs : List Message),
        (∀ m ∈ msgs, (lookupChannel channels (m.route.getD m.channel)).isSome = true) →
        (deliver channels msgs).2 = false) := by
  refine ⟨?_, ?_, ?_⟩
  · intro channels m rest hl
    exact deliver_cons_none channels m rest hl
  · intro s messages next hd
    rw [runLoop_ok_panic s messages next [] hd]
  · intro channels msgs h
    rw [deliver_fanout channels msgs h]

/-- Witness for C5: a message for an unregistered channel panics the delivery
step and the loop exits as panicked. -/
theorem delivery_unwrap_panics_witness :
    deliver [] [mkMessage none "ghost"] = ([], true)
    ∧ (runLoop (SubscribeLoop.new "ps.pndsn.com" "Rust-Agent" "demo" [] [])
        [LoopEvent.response (Except.ok ([mkMessage none "ghost"],
          { t := "15000000000000000", r := 1 }))]).exit = LoopExit.panicked :=
  ⟨delivery_unwrap_panics.1 [] (mkMessage none "ghost") [] rfl,
   delivery_unwrap_panics.2.1
     (SubscribeLoop.new "ps.pndsn.com" "Rust-Agent" "demo" [] [])
     [mkMessage none "ghost"] { t := "15000000000000000", r := 1 } (by decide)⟩

/-- C10: percent-decoding inverts the percent-encoding the code applies to
every (in particular every non-empty) channel name, and `encode_channels`
joins the encoded names with the literal separator `%2C` — shown on a
channel set whose second name contains a space. -/
theorem encode_channels_round_trip :
    (∀ s : String, s ≠ "" → pct_decode (utf8_percent_encode s) = some s)
    ∧ encode_channels [("demo", [0]), ("a b", [1])] = "demo%2Ca%20b" := by
  constructor
  · intro s _
    exact pct_decode_encode s
  · decide

/-- Witness for C10 at the concrete channel name with a space. -/
theorem encode_channels_round_trip_witness :
    ("a b" : String) ≠ "" ∧ pct_decode (utf8_percent_encode "a b") = some "a b" :=
  ⟨by decide, encode_channels_round_trip.1 "a b" (by decide)⟩

end Pubnub
